import Mathlib

/-!
Verification development for the ultrasoundcases data-scraping scripts
(`main.py`, `main2.py`, `main3.py`, `scrapeit.py`).

The Python code is shallowly embedded: Python strings are modeled as Lean
`String` (with the character-list view `String.data`), Python exceptions as
`Except`/`Option` results, and the mutable CSV/filesystem/network effects as
explicit state values.  Every definition follows the corresponding source
function; simplifications (ASCII-only character predicates, a structural model
of the salted string hash) are recorded in the doc comment of the definition
that makes them.
-/

namespace Scraping

/-- Model of Python `str.strip()` (no argument): remove whitespace from both
ends.  Lean's `Char.isWhitespace` covers the ASCII whitespace the scraped
pages contain. -/
def pyStrip (s : List Char) : List Char :=
  ((s.dropWhile Char.isWhitespace).reverse.dropWhile Char.isWhitespace).reverse

/-- Model of Python `str.rstrip(c)` for a single strip character: remove every
trailing occurrence of `c`. -/
def pyRstrip (c : Char) (s : List Char) : List Char :=
  (s.reverse.dropWhile (· == c)).reverse

/-- Worker for `pyReplace`: scan left to right; `skip` counts characters of an
already-matched occurrence that remain to be discarded.  On a fresh match the
first character is consumed and the remaining `pat.length - 1` characters are
scheduled for skipping, which models Python's non-overlapping left-to-right
replacement. -/
def pyReplaceGo (pat : List Char) : Nat → List Char → List Char
  | _, [] => []
  | Nat.succ k, _ :: rest => pyReplaceGo pat k rest
  | 0, c :: rest =>
    if pat.isPrefixOf (c :: rest) then pyReplaceGo pat (pat.length - 1) rest
    else c :: pyReplaceGo pat 0 rest

/-- Model of Python `s.replace(pat, '')`: delete every (non-overlapping,
left-to-right) occurrence of `pat` in `s`.  `s.replace('', '')` returns `s`
unchanged, as in Python. -/
def pyReplace (pat s : List Char) : List Char :=
  match pat with
  | [] => s
  | _ :: _ => pyReplaceGo pat 0 s

/-- Decides whether `pat` occurs as a contiguous sublist of `s` (Python's
`pat in s` for strings). -/
def hasOcc (pat : List Char) : List Char → Bool
  | [] => pat.isEmpty
  | c :: s => pat.isPrefixOf (c :: s) || hasOcc pat s

/-- Model of Python `s.split(sep)` for a one-character separator: the list of
(possibly empty) chunks between occurrences of `sep`; `''.split(sep) = ['']`. -/
def splitOnChar (sep : Char) : List Char → List (List Char)
  | [] => [[]]
  | c :: rest =>
    if c == sep then [] :: splitOnChar sep rest
    else
      match splitOnChar sep rest with
      | [] => [[c]]
      | g :: gs => (c :: g) :: gs

/-- Splits `s` at the first occurrence of the non-empty pattern `pat`,
returning the parts before and after it, or `none` when `pat` does not
occur. -/
def splitFirst (pat : List Char) : List Char → Option (List Char × List Char)
  | [] => none
  | c :: rest =>
    if pat.isPrefixOf (c :: rest) then some ([], (c :: rest).drop pat.length)
    else
      match splitFirst pat rest with
      | some (a, b) => some (c :: a, b)
      | none => none

/-- Returns `true` on `Except.ok`, `false` on `Except.error`; used to state
whether an embedded Python computation raised. -/
def exceptOk {ε α : Type} : Except ε α → Bool
  | Except.ok _ => true
  | Except.error _ => false

/-- One `li` element of the patient-data list as `scrape_case_details` sees
it: `spanText` is the text of `li.find('span')` (`none` when the item has no
span sub-element) and `text` is the full item text. -/
structure LiNode where
  spanText : Option String
  text : String

/-- Embeds one iteration of the patient-details loop of `scrape_case_details`
(`main.py` lines 228-231).  The key is `li.find('span').text.strip().rstrip(':')`
and the value is `li.text.replace(li.find('span').text, '').strip()`.  When the
item has no span sub-element, `li.find('span')` is `None` and the attribute
access raises `AttributeError`, returned here as `Except.error`. -/
def patientDetailOfLi (li : LiNode) : Except String (String × String) :=
  match li.spanText with
  | none => Except.error "AttributeError"
  | some sp =>
    Except.ok (String.mk (pyRstrip ':' (pyStrip sp.data)),
               String.mk (pyStrip (pyReplace sp.data li.text.data)))

/-- The whole patient-details loop of `scrape_case_details` (`main.py` lines
228-231): the items are processed in order and the first raising item aborts
the enclosing function (there is no handler inside `scrape_case_details`). -/
def patientDetailsOfLis : List LiNode → Except String (List (String × String))
  | [] => Except.ok []
  | li :: rest =>
    match patientDetailOfLi li with
    | Except.error e => Except.error e
    | Except.ok kv =>
      match patientDetailsOfLis rest with
      | Except.error e => Except.error e
      | Except.ok kvs => Except.ok (kv :: kvs)

/-- Embeds `if ':' in line: key, value = line.split(':', 1)` followed by
`key.strip()` and `value.strip()` (`main3.py` lines 129-131). -/
def detailsLine (line : List Char) : Option (String × String) :=
  match splitFirst [':'] line with
  | some (k, v) => some (String.mk (pyStrip k), String.mk (pyStrip v))
  | none => none

/-- Embeds the Details recipe of `extract_case_info` (`main3.py` lines
125-131): `details_elem.find_next('p')` is modeled by `nextP`; when the
heading is present but no paragraph follows anywhere after it, the attribute
access `.text` on `None` raises, modeled as `Except.error`. -/
def detailsRecipe (headingPresent : Bool) (nextP : Option String) :
    Except String (List (String × String)) :=
  if headingPresent then
    match nextP with
    | none => Except.error "AttributeError"
    | some t =>
      Except.ok ((splitOnChar '\x0a' (pyStrip t.data)).filterMap detailsLine)
  else Except.ok []

/-- The `details` field `extract_case_info` actually returns: the whole
extraction body sits in a `try`/`except` that logs and falls through
(`main3.py` lines 84-136), so a raising Details recipe leaves the default
empty mapping built at line 81. -/
def caseInfoDetails (headingPresent : Bool) (nextP : Option String) :
    List (String × String) :=
  match detailsRecipe headingPresent nextP with
  | Except.ok l => l
  | Except.error _ => []

/-- The patient-detail value in the words of the claim: the item text minus
its leading label fragment, trimmed.  Stated from the claim for comparison
with `patientDetailOfLi`, which embeds the source. -/
def claimPatientValue (sp item : String) : String :=
  String.mk (pyStrip (item.data.drop sp.data.length))

/-- Executable model of `re.match(r'(.*?)(\d+)\s*Cases', s)` as used by
`extract_cases` (`scrapeit.py` line 142).  The lazy group `(.*?)` grows left
to right; at each digit position the greedy `\d+` takes the maximal digit run
starting there, then `\s*` skips the following whitespace and the literal
`Cases` must follow.  Shrinking `\d+` or `\s*` can never repair a failed
attempt, because the next character would then be a digit, which matches
neither `\s` nor the letter `C`.  The call site passes no `re.DOTALL`, so
`.` does not match a newline: the lazy prefix cannot consume one, and the
scan answers `none` at the first newline reached without a match (`\s`,
unlike `.`, does match a newline, so the whitespace after the digit run may
cross one).  With that, this single left-to-right scan returns exactly the
two capture groups the regex engine returns, or `none` when the pattern does
not match.  `Char.isWhitespace` stands in for `\s` on the ASCII text the
site serves. -/
def reMatchCases : List Char → Option (List Char × List Char)
  | [] => none
  | c :: rest =>
    if c.isDigit &&
        ("Cases".data).isPrefixOf
          (((c :: rest).dropWhile Char.isDigit).dropWhile Char.isWhitespace) then
      some ([], (c :: rest).takeWhile Char.isDigit)
    else if c == '\x0a' then none
    else
      match reMatchCases rest with
      | some (pre, d) => some (c :: pre, d)
      | none => none

/-- The title rewrite of `extract_cases` (`scrapeit.py` lines 140-146): on a
regex match the title becomes the two stripped capture groups joined as
`"{main_title} - {case_count} Cases"`, otherwise the text is kept whole. -/
def extractCaseTitle (title : String) : String :=
  match reMatchCases title.data with
  | some (pre, d) =>
    String.mk (pyStrip pre) ++ " - " ++ String.mk (pyStrip d) ++ " Cases"
  | none => title

/-- Model of Python `int(s)` applied to a string containing only decimal
digit characters (the argument at `main.py` line 93 is pre-filtered with
`str.isdigit`): `int('')` raises `ValueError`, modeled as `none`. -/
def pyIntOfDigits (ds : List Char) : Option Nat :=
  match ds with
  | [] => none
  | _ :: _ => some (ds.foldl (fun n c => n * 10 + (c.toNat - 48)) 0)

/-- The cases-count computation of `scrape_organ_cases` (`main.py` lines
89-93): the count element's stripped text when the element exists, the
literal "0" otherwise, then `int` applied to the digit characters found
anywhere in that text.  `elemText` is `none` when no count element was
found on the page. -/
def casesCount (elemText : Option String) : Option Nat :=
  pyIntOfDigits ((match elemText with
    | some t => pyStrip t.data
    | none => "0".data).filter Char.isDigit)

/-- The fields of one extracted case that `main` flattens into CSV rows
(`scrape_case_details`, `main.py` lines 195-203). -/
structure CaseData where
  title : String
  info : String
  clinicalInfo : String
  patientDetails : List (String × String)
  images : List String
  imageCaptions : List String

/-- One row of `case_details.csv` in the column order declared at `main.py`
lines 387-391. -/
structure Row where
  category : String
  subcategory : String
  title : String
  info : String
  clinicalInfo : String
  patientSex : String
  patientAge : String
  bodyPart : String
  imagePath : String
  imageCaption : String

/-- Model of Python `dict.get(key, '')` on the patient-details mapping. -/
def dictGet (m : List (String × String)) (k : String) : String :=
  match m.find? (fun p => p.1 == k) with
  | some p => p.2
  | none => ""

/-- One output row per image/caption pair (`main.py` lines 455-468). -/
def rowOf (cat sub : String) (cd : CaseData) (p : String × String) : Row :=
  { category := cat, subcategory := sub, title := cd.title, info := cd.info,
    clinicalInfo := cd.clinicalInfo,
    patientSex := dictGet cd.patientDetails "Sex",
    patientAge := dictGet cd.patientDetails "Age",
    bodyPart := dictGet cd.patientDetails "Body part",
    imagePath := p.1, imageCaption := p.2 }

/-- The row block written for one case: `zip(case_data['images'],
case_data['image_captions'])` drives one `writer.writerow` per pair
(`main.py` line 455). -/
def rowsOfCase (cat sub : String) (cd : CaseData) : List Row :=
  (cd.images.zip cd.imageCaptions).map (rowOf cat sub cd)

/-- The per-case body of `main`'s innermost loop (`main.py` lines 439-476):
fetching and extracting a case may raise (`Except.error`, caught by the
handler at line 474, which writes nothing and continues), or return `None`
(no `company-details` div, line 192: no rows), or produce case data whose
rows are written. -/
def processCase (cat sub : String) (r : Except String (Option CaseData)) : List Row :=
  match r with
  | Except.error _ => []
  | Except.ok none => []
  | Except.ok (some cd) => rowsOfCase cat sub cd

/-- All rows contributed by one case list, in traversal order; the CSV file
is append-only and flushed after every row (`main.py` line 469), so the
concatenation order is the order rows become durable. -/
def processCases (cat sub : String) (rs : List (Except String (Option CaseData))) :
    List Row :=
  (rs.map (processCase cat sub)).flatten

/-- One subcategory node: `content` is the outcome of fetching the
subcategory page and collecting its case outcomes; an `Except.error` models
an exception anywhere in the per-subcategory body, caught by the handler at
`main.py` line 478, which skips the subcategory and continues. -/
structure SubcatNode where
  name : String
  content : Except String (List (Except String (Option CaseData)))

def processSubcat (cat : String) (s : SubcatNode) : List Row :=
  match s.content with
  | Except.error _ => []
  | Except.ok cs => processCases cat s.name cs

/-- One discovered category with its subcategory nodes (`main.py` lines
412-415); the category body itself performs no fetch, only the loop over
subcategories. -/
structure CatNode where
  name : String
  subcats : List SubcatNode

/-- The whole traversal of `main` (`main.py` lines 412-480) from the
discovered categories to the list of durable CSV rows. -/
def mainTraversal (cats : List CatNode) : List Row :=
  (cats.map (fun c => (c.subcats.map (processSubcat c.name)).flatten)).flatten

/-- The per-URL body of `process_urls` (`main3.py` lines 162-180): an
exception while fetching or extracting is caught at line 176 and writes
nothing; a fetch with no HTML (line 174) writes nothing; otherwise one row is
written for the URL. -/
def processUrl (r : Except String (Option (List String))) : List (List String) :=
  match r with
  | Except.error _ => []
  | Except.ok none => []
  | Except.ok (some row) => [row]

/-- All rows of `process_urls`, in input order. -/
def processUrls (rs : List (Except String (Option (List String)))) : List (List String) :=
  (rs.map processUrl).flatten

/-- Embeds `url.rstrip('/').split('/')[-1]` (`parse_sitemap`, `main3.py`
line 35): the final path segment after stripping trailing slashes. -/
def lastSegment (url : String) : String :=
  String.mk ((splitOnChar '/' (pyRstrip '/' url.data)).getLast?.getD [])

/-- The digit test of `main3.py` line 42, `last_segment and
last_segment[-1].isdigit()`: the segment is non-empty and its last character
is a digit.  `Char.isDigit` models `str.isdigit` on the ASCII URLs a sitemap
contains. -/
def endsInDigit (seg : String) : Bool :=
  match seg.data.getLast? with
  | some c => c.isDigit
  | none => false

/-- One iteration of the `<loc>` loop of `parse_sitemap` (`main3.py` lines
32-43): append the URL with its last segment to the full list and, when the
last segment ends in a digit, the URL to the filtered list. -/
def sitemapStep (acc : List (String × String) × List String) (u : String) :
    List (String × String) × List String :=
  (acc.1 ++ [(u, lastSegment u)],
   if endsInDigit (lastSegment u) then acc.2 ++ [u] else acc.2)

/-- The two lists `parse_sitemap` builds from the sitemap's `<loc>` URLs:
`all_urls` (with last segments) and `digit_ending_urls`. -/
def parseSitemap (locs : List String) : List (String × String) × List String :=
  locs.foldl sitemapStep ([], [])

/-- Model of CPython's salted string hashing as used by `hash(url)` at
`main.py` line 22: the value depends on a per-process random salt
(`PYTHONHASHSEED`) as well as on the string, is constant within one process,
and varies with the salt between processes.  The exact mixing function is
immaterial to the claims about `download_file`; the model folds the
characters and adds the salt, reduced modulo the 64-bit hash space. -/
def pyHash (salt : Nat) (s : String) : Nat :=
  (salt + s.data.foldl (fun h c => (h * 31 + c.toNat) % (2 ^ 64)) 5381) % (2 ^ 64)

/-- Little-endian decimal digits of `n`, least significant first. -/
def natDigitsRev (n : Nat) : List Nat :=
  if h : n < 10 then [n] else (n % 10) :: natDigitsRev (n / 10)
termination_by n
decreasing_by exact Nat.div_lt_self (by omega) (by omega)

/-- The value of a little-endian digit list. -/
def digitsVal : List Nat → Nat
  | [] => 0
  | d :: ds => d + 10 * digitsVal ds

/-- The ten decimal digit characters. -/
def digitChar : Nat → Char
  | 0 => '0'
  | 1 => '1'
  | 2 => '2'
  | 3 => '3'
  | 4 => '4'
  | 5 => '5'
  | 6 => '6'
  | 7 => '7'
  | 8 => '8'
  | _ => '9'

/-- The decimal rendering of `n`, as the f-string interpolation
`f"file_\x7bhash(url)\x7d"` renders the hash value. -/
def natDecimal (n : Nat) : List Char :=
  ((natDigitsRev n).map digitChar).reverse

/-- The fallback filename `f"file_\x7bhash(url)\x7d"` of `main.py` line 22. -/
def fallbackName (salt : Nat) (url : String) : String :=
  String.mk ("file_".data ++ natDecimal (pyHash salt url))

/-- The part of `s` before the first occurrence of `sep`, or all of `s` when
`sep` does not occur. -/
def cutAfter (sep : List Char) (s : List Char) : List Char :=
  match splitFirst sep s with
  | some (a, _) => a
  | none => s

/-- Model of `urllib.parse.urlparse(url).path` for the URLs this program
sees: the fragment and the query are cut, then everything after the first
`"://"` and the authority (up to the next slash) is the path; a URL without
`"://"` is all path. -/
def urlPath (url : String) : String :=
  String.mk
    (match splitFirst "://".data (cutAfter ['?'] (cutAfter ['#'] url.data)) with
     | some (_, rest) =>
       match splitFirst ['/'] rest with
       | some (_, p) => '/' :: p
       | none => []
     | none => cutAfter ['?'] (cutAfter ['#'] url.data))

/-- Model of `os.path.basename`: the part after the last slash. -/
def osBasename (p : String) : String :=
  String.mk ((splitOnChar '/' p.data).getLast?.getD [])

/-- One HTTP response seen by `download_file`: the status code and the body
read, which can itself fail mid-transfer (`Except.error`). -/
structure DlResponse where
  status : Nat
  body : Except Unit (List Nat)

/-- The world state `download_file` touches: the log of issued GET requests
and the files on disk (a map from path to contents). -/
structure DlState where
  requests : List String
  files : String → Option (List Nat)

/-- Creates or truncates the file at `p` with contents `b`. -/
def setFile (fs : String → Option (List Nat)) (p : String) (b : List Nat) :
    String → Option (List Nat) :=
  fun q => if q = p then some b else fs q

/-- Embeds `download_file` (`main.py` lines 15-32) against a network oracle
`net` (`none` models `session.get` raising).  The GET is always issued; on a
200 status the file is created empty by `aiofiles.open(filepath, 'wb')`
before the body is read, and the fully received body is then written in one
call; any exception is caught at line 30 and the function returns `None`.
`salt` is the process hash salt used by the fallback filename. -/
def downloadFile (net : String → Option DlResponse) (salt : Nat)
    (st : DlState) (folder url : String) : DlState × Option String :=
  let st1 : DlState := ⟨st.requests ++ [url], st.files⟩
  match net url with
  | none => (st1, none)
  | some r =>
    if r.status == 200 then
      let fname0 := osBasename (urlPath url)
      let fname := if fname0 == "" then fallbackName salt url else fname0
      let fpath := folder ++ "/" ++ fname
      let st2 : DlState := ⟨st1.requests, setFile st1.files fpath []⟩
      match r.body with
      | Except.error _ => (st2, none)
      | Except.ok b => (⟨st2.requests, setFile st2.files fpath b⟩, some fpath)
    else (st1, none)

/-- A sequence of `download_file` calls within one run, returning the final
state and the per-call results. -/
def runDownloads (net : String → Option DlResponse) (salt : Nat)
    (folder : String) : DlState → List String → DlState × List (Option String)
  | st, [] => (st, [])
  | st, u :: us =>
    let p := downloadFile net salt st folder u
    let q := runDownloads net salt folder p.1 us
    (q.1, p.2 :: q.2)

/-- One image anchor of the portfolio section (`main.py` lines 240-247):
`href` is the anchor's href attribute and `captionText` the text of the
following caption div, when one exists. -/
structure ImgLink where
  href : String
  captionText : Option String

/-- The caption recipe `caption_div.text.strip() if caption_div else ''`
(`main.py` line 247). -/
def capOf (l : ImgLink) : String :=
  match l.captionText with
  | some t => String.mk (pyStrip t.data)
  | none => ""

/-- The media test `'jpg' in img_link['href'].lower() or 'png' in
img_link['href'].lower()` (`main.py` line 244), with `Char.toLower` standing
in for `str.lower` on ASCII hrefs. -/
def isMediaHref (href : String) : Bool :=
  hasOcc "jpg".data (href.data.map Char.toLower) ||
  hasOcc "png".data (href.data.map Char.toLower)

/-- The site base URL passed to `urljoin` throughout the source. -/
def siteBase : String := "https://www.ultrasoundcases.info"

/-- Simplified model of `urllib.parse.urljoin(base, url)` for the path-less
base the source uses: an absolute URL (containing `"://"`) is kept, a
root-relative path is appended to the base, any other relative path is
appended after a slash. -/
def pyUrljoin (base url : String) : String :=
  if hasOcc "://".data url.data then url
  else if ("/".data).isPrefixOf url.data then base ++ url
  else base ++ "/" ++ url

/-- One iteration of the portfolio image loop of `scrape_case_details`
(`main.py` lines 243-257) against a download oracle `dl` (the result of
`download_file` per URL, `none` on failure): on success the local path and
the caption are appended together; on failure only a log line is printed and
nothing is recorded. -/
def imageStep (dl : String → Option String) (acc : List String × List String)
    (l : ImgLink) : List String × List String :=
  if isMediaHref l.href then
    match dl (pyUrljoin siteBase l.href) with
    | some fp => (acc.1 ++ [fp], acc.2 ++ [capOf l])
    | none => acc
  else acc

/-- The `images` and `image_captions` lists built by the portfolio loop. -/
def extractImages (dl : String → Option String) (links : List ImgLink) :
    List String × List String :=
  links.foldl (imageStep dl) ([], [])

/-- What one image link contributes when its download succeeds: the local
path paired with the caption; `none` when it is not a media link or its
download fails. -/
def imageResult (dl : String → Option String) (l : ImgLink) :
    Option (String × String) :=
  if isMediaHref l.href then
    match dl (pyUrljoin siteBase l.href) with
    | some fp => some (fp, capOf l)
    | none => none
  else none

/-! ### Theorems -/

theorem isPrefixOf_append_self (l t : List Char) : l.isPrefixOf (l ++ t) = true := by
  induction l with
  | nil => simp
  | cons a as ih => simp [ih]

theorem pyReplaceGo_skip (pat : List Char) :
    ∀ s k, pyReplaceGo pat k s = pyReplaceGo pat 0 (s.drop k) := by
  intro s
  induction s with
  | nil => intro k; cases k <;> rfl
  | cons c rest ih =>
    intro k
    cases k with
    | zero => rfl
    | succ k => simpa [pyReplaceGo] using ih k

theorem pyReplace_append_self (pat rest : List Char) (h : pat ≠ []) :
    pyReplace pat (pat ++ rest) = pyReplace pat rest := by
  cases pat with
  | nil => exact absurd rfl h
  | cons p pt =>
    have hpre : (p :: pt).isPrefixOf (p :: (pt ++ rest)) = true := by
      simp
    show pyReplaceGo (p :: pt) 0 (p :: (pt ++ rest)) = pyReplaceGo (p :: pt) 0 rest
    rw [pyReplaceGo, if_pos hpre, pyReplaceGo_skip]
    have hlen : (p :: pt).length - 1 = pt.length := by simp
    rw [hlen, List.drop_left]

theorem pyReplaceGo_of_not_occ (p : Char) (pt s : List Char)
    (h : hasOcc (p :: pt) s = false) : pyReplaceGo (p :: pt) 0 s = s := by
  induction s with
  | nil => rfl
  | cons c rest ih =>
    rw [hasOcc, Bool.or_eq_false_iff] at h
    rw [pyReplaceGo, if_neg (by simp [h.1]), ih h.2]

theorem pyReplace_of_not_occ (pat s : List Char) (h : hasOcc pat s = false) :
    pyReplace pat s = s := by
  cases pat with
  | nil => rfl
  | cons p pt => exact pyReplaceGo_of_not_occ p pt s h

/-- Claim C1 (counterexample): the claim states that extracting patient
details from a list item that lacks a label sub-element terminates with a
default value and never raises; in `scrape_case_details` the span lookup
returns `None` for such an item and the attribute access raises an
`AttributeError`, so the recipe errors instead of defaulting. -/
theorem c1_counterexample :
    patientDetailsOfLis [{ spanText := none, text := "Sex: F" }] =
      Except.error "AttributeError" := rfl

/-- Claim C1 (amended): recipes guarded by explicit conditionals terminate
with a default on missing structure, and the Details recipe, though it raises
when the heading has no following paragraph, still ends as the default empty
mapping because the handler wrapped around `extract_case_info` catches the
error; but the patient-details recipe raises, and the error escapes
`scrape_case_details`, exactly when some list item lacks a span sub-element. -/
theorem c1_recipes_default_amended :
    (∀ lis : List LiNode,
        exceptOk (patientDetailsOfLis lis) = lis.all (fun li => li.spanText.isSome)) ∧
    (∀ p : Option String, exceptOk (detailsRecipe true p) = p.isSome) ∧
    caseInfoDetails true none = [] := by
  refine ⟨?_, ?_, rfl⟩
  · intro lis
    induction lis with
    | nil => rfl
    | cons li rest ih =>
      cases h : li.spanText with
      | none => simp [patientDetailsOfLis, patientDetailOfLi, h, exceptOk]
      | some sp =>
        cases h2 : patientDetailsOfLis rest with
        | error e =>
          rw [h2] at ih
          simp [patientDetailsOfLis, patientDetailOfLi, h, h2, exceptOk, ← ih]
        | ok kvs =>
          rw [h2] at ih
          simp [patientDetailsOfLis, patientDetailOfLi, h, h2, exceptOk, ← ih]
  · intro p; cases p <;> rfl

/-- Claim C4 (counterexample): the claim states that the mapped value is the
item text minus its leading label fragment; the source instead removes every
occurrence of the span text from the item text, so an item whose value part
repeats the label text diverges from the claim at this concrete input. -/
theorem c4_counterexample :
    patientDetailOfLi { spanText := some "Sex:", text := "Sex: F Sex: M" } =
      Except.ok ("Sex", "F  M") ∧
    claimPatientValue "Sex:" "Sex: F Sex: M" = "F Sex: M" ∧
    ("F  M" : String) ≠ "F Sex: M" :=
  ⟨rfl, rfl, by decide⟩

/-- Claim C4 (amended): the key is the span text trimmed of whitespace and
trailing colons, and the value is the item text with every occurrence of the
raw span text removed and the result trimmed; when the span text occurs in
the item only as its leading fragment this coincides with the claim's "item
text minus its leading label fragment", and an item reading "Sex: F" yields
the pair ("Sex", "F"). -/
theorem c4_patient_label_value (sp rest : String) (h1 : sp.data ≠ [])
    (h2 : hasOcc sp.data rest.data = false) :
    patientDetailOfLi { spanText := some sp, text := String.mk (sp.data ++ rest.data) } =
      Except.ok (String.mk (pyRstrip ':' (pyStrip sp.data)),
                 claimPatientValue sp (String.mk (sp.data ++ rest.data))) := by
  show Except.ok (String.mk (pyRstrip ':' (pyStrip sp.data)),
        String.mk (pyStrip (pyReplace sp.data (sp.data ++ rest.data)))) = _
  rw [pyReplace_append_self sp.data rest.data h1,
      pyReplace_of_not_occ sp.data rest.data h2]
  show _ = Except.ok (String.mk (pyRstrip ':' (pyStrip sp.data)),
        String.mk (pyStrip ((sp.data ++ rest.data).drop sp.data.length)))
  rw [List.drop_left]

/-- Witness for `c4_patient_label_value` at the claim's own scenario: the
item "Sex: F" with span text "Sex:" yields key "Sex" and value "F". -/
theorem c4_patient_label_value_witness :
    "Sex:".data ≠ [] ∧ hasOcc "Sex:".data " F".data = false ∧
    patientDetailOfLi { spanText := some "Sex:",
                        text := String.mk ("Sex:".data ++ " F".data) } =
      Except.ok (String.mk (pyRstrip ':' (pyStrip "Sex:".data)),
                 claimPatientValue "Sex:" (String.mk ("Sex:".data ++ " F".data))) :=
  ⟨by decide, by decide, c4_patient_label_value "Sex:" " F" (by decide) (by decide)⟩

theorem processCases_append (cat sub : String)
    (l r : List (Except String (Option CaseData))) :
    processCases cat sub (l ++ r) = processCases cat sub l ++ processCases cat sub r := by
  simp [processCases]

/-- Claim C2: in the traversal of `main` and `process_urls`, a fetch or
extraction error at a case node, a subcategory node, or a URL node is caught
at that node's boundary and converted into a skip — the siblings' rows are
exactly the rows produced without the failing node — and every row emitted
before the failure is a durable prefix of the final output. -/
theorem c2_per_node_errors_are_skips :
    (∀ cat sub e pre post,
        processCases cat sub (pre ++ Except.error e :: post) =
          processCases cat sub pre ++ processCases cat sub post) ∧
    (∀ cat nm e pre post,
        mainTraversal [⟨cat, pre ++ ⟨nm, Except.error e⟩ :: post⟩] =
          mainTraversal [⟨cat, pre ++ post⟩]) ∧
    (∀ e pre post,
        processUrls (pre ++ Except.error e :: post) =
          processUrls pre ++ processUrls post) ∧
    (∀ cat sub pre rest,
        processCases cat sub pre <+: processCases cat sub (pre ++ rest)) := by
  refine ⟨?_, ?_, ?_, ?_⟩
  · intro cat sub e pre post
    simp [processCases, processCase]
  · intro cat nm e pre post
    simp [mainTraversal, processSubcat]
  · intro e pre post
    simp [processUrls, processUrl]
  · intro cat sub pre rest
    rw [processCases_append]
    exact List.prefix_append _ _

theorem sitemapStep_foldl (locs : List String) :
    ∀ acc, locs.foldl sitemapStep acc =
      (acc.1 ++ locs.map (fun u => (u, lastSegment u)),
       acc.2 ++ locs.filter (fun u => endsInDigit (lastSegment u))) := by
  induction locs with
  | nil => intro acc; simp
  | cons u rest ih =>
    intro acc
    rw [List.foldl_cons, ih]
    cases h : endsInDigit (lastSegment u) with
    | true => simp [sitemapStep, h, List.filter_cons]
    | false => simp [sitemapStep, h, List.filter_cons]

/-- Claim C9: the digit-filtered output list of `parse_sitemap` contains
exactly those discovered URLs whose final path segment, after stripping
trailing slashes, ends in a decimal digit, in input order; the full list
pairs every URL with its final segment; and the claim's scenario with
`.../case-100/` and `.../overview/` keeps only the first URL. -/
theorem c9_digit_filtered_urls :
    (∀ locs : List String,
        (parseSitemap locs).2 =
          locs.filter (fun u => endsInDigit (lastSegment u))) ∧
    (∀ locs : List String,
        (parseSitemap locs).1 = locs.map (fun u => (u, lastSegment u))) ∧
    (parseSitemap ["https://www.ultrasoundcases.info/cases/case-100/",
                   "https://www.ultrasoundcases.info/cases/overview/"]).2 =
      ["https://www.ultrasoundcases.info/cases/case-100/"] := by
  refine ⟨?_, ?_, ?_⟩
  · intro locs
    rw [parseSitemap, sitemapStep_foldl]
    simp
  · intro locs
    rw [parseSitemap, sitemapStep_foldl]
    simp
  · rfl

theorem downloadFile_requests (net : String → Option DlResponse) (salt : Nat)
    (st : DlState) (folder url : String) :
    (downloadFile net salt st folder url).1.requests = st.requests ++ [url] := by
  rw [downloadFile]
  cases net url with
  | none => rfl
  | some r =>
    by_cases h : r.status == 200
    · simp only [h, if_true]
      cases r.body <;> rfl
    · simp [h]

/-- Claim C6 (counterexample): the claim states that a cached mapping lets at
most one network request be issued per URL within a run; `download_file` has
no cache, and two calls for the same URL issue two GET requests. -/
theorem c6_counterexample :
    ((runDownloads (fun _ => some ⟨200, Except.ok [7]⟩) 0 "images"
        ⟨[], fun _ => none⟩ ["https://h/a.jpg", "https://h/a.jpg"]).1.requests.count
      "https://h/a.jpg" = 2) ∧
    ¬((runDownloads (fun _ => some ⟨200, Except.ok [7]⟩) 0 "images"
        ⟨[], fun _ => none⟩ ["https://h/a.jpg", "https://h/a.jpg"]).1.requests.count
      "https://h/a.jpg" ≤ 1) := by
  constructor <;> decide

/-- Claim C6 (amended): `download_file` maintains no cache of fetched URLs:
every call issues its own GET request, so a run over a URL sequence issues
exactly that sequence of requests — a URL repeated n times is requested n
times, not once. -/
theorem c6_every_call_issues_a_request (net : String → Option DlResponse)
    (salt : Nat) (folder : String) :
    ∀ (urls : List String) (st : DlState),
      (runDownloads net salt folder st urls).1.requests = st.requests ++ urls := by
  intro urls
  induction urls with
  | nil => intro st; simp [runDownloads]
  | cons u us ih =>
    intro st
    rw [runDownloads]
    simp only []
    rw [ih, downloadFile_requests]
    simp

/-- Claim C7 (counterexample): the claim states a failed fetch leaves no file
— in particular never an empty partial file — at the destination; but
`download_file` opens the destination in write mode before reading the body,
so a 200 response whose body read then fails returns `None` yet leaves an
empty file on disk. -/
theorem c7_counterexample :
    (downloadFile (fun _ => some ⟨200, Except.error ()⟩) 0 ⟨[], fun _ => none⟩
        "images" "https://h/a.jpg").2 = none ∧
    (downloadFile (fun _ => some ⟨200, Except.error ()⟩) 0 ⟨[], fun _ => none⟩
        "images" "https://h/a.jpg").1.files "images/a.jpg" = some [] := by
  constructor <;> decide

/-- Claim C7 (amended): the body is written only as one full payload — a
returned path always carries the complete received body — and on an
`Unresolved` (`None`) result no file with new non-empty contents exists: any
file present after a failed call either predates the call or is the empty
file created by opening the destination before the body read failed. -/
theorem c7_unresolved_leaves_no_new_content (net : String → Option DlResponse)
    (salt : Nat) (st : DlState) (folder url : String) :
    (∀ fp, (downloadFile net salt st folder url).2 = some fp →
        ∃ r b, net url = some r ∧ r.body = Except.ok b ∧
          (downloadFile net salt st folder url).1.files fp = some b) ∧
    ((downloadFile net salt st folder url).2 = none →
        ∀ fp c, (downloadFile net salt st folder url).1.files fp = some c →
          st.files fp = some c ∨ c = []) := by
  cases hnet : net url with
  | none =>
    constructor
    · intro fp h
      rw [downloadFile, hnet] at h
      exact absurd h (by simp)
    · intro _ fp c hc
      rw [downloadFile, hnet] at hc
      exact Or.inl hc
  | some r =>
    by_cases hs : r.status == 200
    · cases hb : r.body with
      | error e =>
        constructor
        · intro fp h
          rw [downloadFile, hnet] at h
          simp only [hs, if_true, hb] at h
          exact absurd h (by simp)
        · intro _ fp c hc
          rw [downloadFile, hnet] at hc
          simp only [hs, if_true, hb, setFile] at hc
          by_cases hfp : fp = folder ++ "/" ++
              (if (osBasename (urlPath url) == "") = true then fallbackName salt url
               else osBasename (urlPath url))
          · rw [if_pos hfp] at hc
            exact Or.inr (by injection hc with h2; exact h2.symm)
          · rw [if_neg hfp] at hc
            exact Or.inl hc
      | ok b =>
        constructor
        · intro fp h
          rw [downloadFile, hnet] at h
          simp only [hs, if_true, hb] at h
          refine ⟨r, b, rfl, hb, ?_⟩
          rw [downloadFile, hnet]
          simp only [hs, if_true, hb, setFile]
          rw [if_pos]
          injection h with h2
          exact h2.symm
        · intro h
          rw [downloadFile, hnet] at h
          simp only [hs, if_true, hb] at h
          exact absurd h (by simp)
    · constructor
      · intro fp h
        rw [downloadFile, hnet] at h
        simp only [hs, if_false] at h
        exact absurd h (by simp)
      · intro _ fp c hc
        rw [downloadFile, hnet] at hc
        simp only [hs, if_false] at hc
        exact Or.inl hc

/-- Witness for `c7_unresolved_leaves_no_new_content`: a successful download
stores the full received body at the returned path. -/
theorem c7_unresolved_leaves_no_new_content_witness :
    (downloadFile (fun _ => some ⟨200, Except.ok [7]⟩) 0 ⟨[], fun _ => none⟩
        "images" "https://h/a.jpg").2 = some "images/a.jpg" ∧
    ∃ r b, (fun _ => some (⟨200, Except.ok [7]⟩ : DlResponse)) "https://h/a.jpg" =
        some r ∧ r.body = Except.ok b ∧
      (downloadFile (fun _ => some ⟨200, Except.ok [7]⟩) 0 ⟨[], fun _ => none⟩
        "images" "https://h/a.jpg").1.files "images/a.jpg" = some b :=
  ⟨by decide,
   (c7_unresolved_leaves_no_new_content (fun _ => some ⟨200, Except.ok [7]⟩) 0
      ⟨[], fun _ => none⟩ "images" "https://h/a.jpg").1 "images/a.jpg" (by decide)⟩

theorem digitsVal_natDigitsRev (n : Nat) : digitsVal (natDigitsRev n) = n := by
  induction n using Nat.strong_induction_on with
  | _ n ih =>
    rw [natDigitsRev]
    by_cases h : n < 10
    · simp [h, digitsVal]
    · have hlt : n / 10 < n := Nat.div_lt_self (by omega) (by omega)
      rw [dif_neg h]
      rw [digitsVal, ih _ hlt]
      omega

theorem natDigitsRev_lt_ten (n : Nat) : ∀ d ∈ natDigitsRev n, d < 10 := by
  induction n using Nat.strong_induction_on with
  | _ n ih =>
    rw [natDigitsRev]
    by_cases h : n < 10
    · simp [h]
    · have hlt : n / 10 < n := Nat.div_lt_self (by omega) (by omega)
      rw [dif_neg h]
      intro d hd
      rcases List.mem_cons.mp hd with h1 | h2
      · omega
      · exact ih _ hlt d h2

theorem digitChar_inj : ∀ a < 10, ∀ b < 10, digitChar a = digitChar b → a = b := by
  decide

theorem map_digitChar_inj :
    ∀ l1 l2 : List Nat, (∀ d ∈ l1, d < 10) → (∀ d ∈ l2, d < 10) →
      l1.map digitChar = l2.map digitChar → l1 = l2 := by
  intro l1
  induction l1 with
  | nil =>
    intro l2 _ _ h
    cases l2 with
    | nil => rfl
    | cons b bs => simp at h
  | cons a as ih =>
    intro l2 h1 h2 h
    cases l2 with
    | nil => simp at h
    | cons b bs =>
      simp only [List.map_cons, List.cons.injEq] at h
      have hab : a = b :=
        digitChar_inj a (h1 a (by simp)) b (h2 b (by simp)) h.1
      rw [hab, ih bs (fun d hd => h1 d (by simp [hd])) (fun d hd => h2 d (by simp [hd])) h.2]

theorem natDecimal_inj (m n : Nat) (h : natDecimal m = natDecimal n) : m = n := by
  have h1 : (natDigitsRev m).map digitChar = (natDigitsRev n).map digitChar := by
    have h2 := congrArg List.reverse h
    simpa [natDecimal] using h2
  have h3 := map_digitChar_inj _ _ (natDigitsRev_lt_ten m) (natDigitsRev_lt_ten n) h1
  have h4 := congrArg digitsVal h3
  rwa [digitsVal_natDigitsRev, digitsVal_natDigitsRev] at h4

theorem fallbackName_eq_iff (s1 s2 : Nat) (u1 u2 : String) :
    fallbackName s1 u1 = fallbackName s2 u2 ↔ pyHash s1 u1 = pyHash s2 u2 := by
  constructor
  · intro h
    have hd := congrArg String.data h
    simp only [fallbackName] at hd
    exact natDecimal_inj _ _ (List.append_cancel_left hd)
  · intro h
    rw [fallbackName, fallbackName, h]

/-- Claim C8 (counterexample): the claim states that two runs over the same
URL produce the identical fallback filename; the string hash is salted per
process, so a URL with an empty path basename receives different fallback
names under different process salts. -/
theorem c8_counterexample :
    osBasename (urlPath "https://www.ultrasoundcases.info/") = "" ∧
    fallbackName 0 "https://www.ultrasoundcases.info/" ≠
      fallbackName 1 "https://www.ultrasoundcases.info/" := by
  constructor
  · decide
  · intro h
    have h2 := (fallbackName_eq_iff 0 1 _ _).mp h
    revert h2
    decide

/-- Claim C8 (amended): within one run — that is, for one fixed process hash
salt — the fallback filename is a deterministic function of the URL, and two
URLs receive the same fallback name exactly when their hashes collide, so
distinct URLs produce distinct names up to hash-space collisions; across
runs the name is not repeatable, because the hash is salted per process. -/
theorem c8_fallback_name_collision_only (salt : Nat) (u1 u2 : String) :
    fallbackName salt u1 = fallbackName salt u2 ↔
      pyHash salt u1 = pyHash salt u2 :=
  fallbackName_eq_iff salt salt u1 u2

/-- Witness for `c8_fallback_name_collision_only` at two concrete URLs whose
hashes differ, hence whose fallback names differ. -/
theorem c8_fallback_name_collision_only_witness :
    pyHash 0 "https://a/" ≠ pyHash 0 "https://b/" ∧
    fallbackName 0 "https://a/" ≠ fallbackName 0 "https://b/" :=
  ⟨by decide,
   fun h => absurd ((c8_fallback_name_collision_only 0 "https://a/" "https://b/").mp h)
     (by decide)⟩

theorem imageStep_eq (dl : String → Option String)
    (acc : List String × List String) (l : ImgLink) :
    imageStep dl acc l =
      match imageResult dl l with
      | some p => (acc.1 ++ [p.1], acc.2 ++ [p.2])
      | none => acc := by
  rw [imageStep, imageResult]
  by_cases h : isMediaHref l.href
  · simp only [h, if_true]
    cases dl (pyUrljoin siteBase l.href) <;> rfl
  · simp [h]

theorem extractImages_foldl (dl : String → Option String) (links : List ImgLink) :
    ∀ acc, links.foldl (imageStep dl) acc =
      (acc.1 ++ (links.filterMap (imageResult dl)).map Prod.fst,
       acc.2 ++ (links.filterMap (imageResult dl)).map Prod.snd) := by
  induction links with
  | nil => intro acc; simp
  | cons l ls ih =>
    intro acc
    rw [List.foldl_cons, imageStep_eq, ih]
    cases h : imageResult dl l with
    | some p => simp [List.filterMap_cons, h]
    | none => simp [List.filterMap_cons, h]

/-- Claim C3 (counterexample): the claim states that an asset whose fetch
fails is retained as an AssetRef without a local path and that a row with an
empty image path is emitted for it; in the source a failed download appends
neither a path nor a caption (`main.py` lines 252-257), so nothing about the
asset is retained and no row at all is produced for it. -/
theorem c3_counterexample :
    extractImages (fun _ => none) [⟨"a.jpg", some "cap"⟩] = ([], []) ∧
    rowsOfCase "Abdomen" "Liver"
      { title := "t", info := "", clinicalInfo := "", patientDetails := [],
        images := (extractImages (fun _ => none) [⟨"a.jpg", some "cap"⟩]).1,
        imageCaptions := (extractImages (fun _ => none) [⟨"a.jpg", some "cap"⟩]).2 } =
      [] := by
  constructor <;> rfl

/-- Claim C3 (amended): a referenced media asset whose fetch fails is
silently dropped: the images and captions lists collect exactly the
successful downloads, in order, so a failed asset contributes no entry and
consequently no output row; case extraction itself still succeeds (the
extraction is total and the successful assets are kept). -/
theorem c3_failed_assets_dropped (dl : String → Option String) :
    (∀ links, extractImages dl links =
      ((links.filterMap (imageResult dl)).map Prod.fst,
       (links.filterMap (imageResult dl)).map Prod.snd)) ∧
    (∀ links, extractImages (fun _ => none) links = ([], [])) := by
  constructor
  · intro links
    rw [extractImages, extractImages_foldl]
    simp
  · intro links
    rw [extractImages, extractImages_foldl]
    have h : ∀ l ∈ links, imageResult (fun _ => none) l = none := by
      intro l _
      rw [imageResult]
      by_cases h2 : isMediaHref l.href <;> simp [h2]
    simp [List.filterMap_eq_nil_iff.mpr h]

/-- Claim C10: the images list and the captions list built by the portfolio
loop always have equal length — each successful download appends one path
and one caption together — so the row-writing zip pairs every element of
both lists and discards nothing, and the case contributes exactly one row
per downloaded image. -/
theorem c10_images_captions_zip_lossless (dl : String → Option String)
    (links : List ImgLink) (cat sub t i c : String)
    (pd : List (String × String)) :
    (extractImages dl links).1.length = (extractImages dl links).2.length ∧
    ((extractImages dl links).1.zip (extractImages dl links).2).map Prod.fst =
      (extractImages dl links).1 ∧
    ((extractImages dl links).1.zip (extractImages dl links).2).map Prod.snd =
      (extractImages dl links).2 ∧
    (rowsOfCase cat sub
      { title := t, info := i, clinicalInfo := c, patientDetails := pd,
        images := (extractImages dl links).1,
        imageCaptions := (extractImages dl links).2 }).length =
      (extractImages dl links).1.length := by
  have he : extractImages dl links =
      ((links.filterMap (imageResult dl)).map Prod.fst,
       (links.filterMap (imageResult dl)).map Prod.snd) := by
    rw [extractImages, extractImages_foldl]
    simp
  rw [he]
  refine ⟨by simp, ?_, ?_, ?_⟩
  · exact List.map_fst_zip _ _ (by simp)
  · exact List.map_snd_zip _ _ (by simp)
  · simp [rowsOfCase]

theorem takeWhile_all_append (p : Char → Bool) (l r : List Char)
    (h : l.all p = true) : (l ++ r).takeWhile p = l ++ r.takeWhile p := by
  induction l with
  | nil => rfl
  | cons a as ih =>
    simp only [List.all_cons, Bool.and_eq_true] at h
    simp [List.takeWhile_cons, h.1, ih h.2]

theorem dropWhile_all_append (p : Char → Bool) (l r : List Char)
    (h : l.all p = true) : (l ++ r).dropWhile p = r.dropWhile p := by
  induction l with
  | nil => rfl
  | cons a as ih =>
    simp only [List.all_cons, Bool.and_eq_true] at h
    simp [List.dropWhile_cons, h.1, ih h.2]

theorem reMatchCases_canonical (digits : List Char) (hne : digits ≠ [])
    (hdig : digits.all Char.isDigit = true) :
    ∀ name : List Char, name.all (fun c => !c.isDigit && !(c == '\x0a')) = true →
      reMatchCases (name ++ (digits ++ " Cases".data)) = some (name, digits) := by
  intro name
  induction name with
  | nil =>
    intro _
    cases digits with
    | nil => exact absurd rfl hne
    | cons d ds =>
      have hd : d.isDigit = true := by
        simp only [List.all_cons, Bool.and_eq_true] at hdig
        exact hdig.1
      have h1 := dropWhile_all_append Char.isDigit (d :: ds) (" Cases".data) hdig
      have h2 := takeWhile_all_append Char.isDigit (d :: ds) (" Cases".data) hdig
      rw [List.cons_append] at h1 h2
      show reMatchCases (d :: (ds ++ " Cases".data)) = some ([], d :: ds)
      rw [reMatchCases, h1, h2]
      have h3 : (" Cases".data.dropWhile Char.isDigit).dropWhile Char.isWhitespace
          = "Cases".data := by decide
      have h4 : " Cases".data.takeWhile Char.isDigit = [] := by decide
      rw [h3, h4, List.append_nil, hd]
      simp
  | cons c nm ih =>
    intro hname
    simp only [List.all_cons, Bool.and_eq_true, Bool.not_eq_true'] at hname
    show reMatchCases (c :: (nm ++ (digits ++ " Cases".data))) = some (c :: nm, digits)
    rw [reMatchCases]
    have hih := ih hname.2
    rw [hname.1.1, hname.1.2]
    simp [hih]

/-- Claim C5 (status: code_bug evidence and intended behavior).  For combined
text of the canonical form — a newline-free, digit-free name followed by a
digit run and " Cases" — the two-capture-group regex yields the title and the
count; a name containing a newline before the digits defeats the match, since
`.` does not match a newline without `re.DOTALL`, and a non-matching text
keeps the whole text as the title.  An absent count element yields 0, and
digits anywhere in the element are used; but a count element whose text
contains no digit characters makes the source evaluate `int('')`, which
raises `ValueError` instead of producing the 0 the claim (and the spec's
failure policy) requires — modeled by `casesCount (some "No Cases yet") =
none`. -/
theorem c5_case_count_parsing :
    (∀ name digits : List Char, digits ≠ [] → digits.all Char.isDigit = true →
        name.all (fun c => !c.isDigit && !(c == '\x0a')) = true →
        reMatchCases (name ++ (digits ++ " Cases".data)) = some (name, digits)) ∧
    (∀ t : String, reMatchCases t.data = none → extractCaseTitle t = t) ∧
    reMatchCases "Liver\x0acysts 23 Cases".data = none ∧
    extractCaseTitle "Liver\x0acysts 23 Cases" = "Liver\x0acysts 23 Cases" ∧
    casesCount none = some 0 ∧
    casesCount (some "a 17 b") = some 17 ∧
    casesCount (some "No Cases yet") = none :=
  ⟨fun name digits hne hdig hname => reMatchCases_canonical digits hne hdig name hname,
   fun t h => by rw [extractCaseTitle, h],
   rfl, rfl, rfl, rfl, rfl⟩

/-- Witness for `c5_case_count_parsing` at a concrete listing title. -/
theorem c5_case_count_parsing_witness :
    ("23".data ≠ [] ∧ "23".data.all Char.isDigit = true ∧
      "Liver ".data.all (fun c => !c.isDigit && !(c == '\x0a')) = true) ∧
    reMatchCases ("Liver ".data ++ ("23".data ++ " Cases".data)) =
      some ("Liver ".data, "23".data) :=
  ⟨⟨by decide, by decide, by decide⟩,
   c5_case_count_parsing.1 "Liver ".data "23".data (by decide) (by decide) (by decide)⟩

example : patientDetailOfLi { spanText := some "Sex:", text := "Sex: F" } =
    Except.ok ("Sex", "F") := rfl
example : extractCaseTitle "Liver 23 Cases" = "Liver - 23 Cases" := rfl
example : extractCaseTitle "Liver Overview" = "Liver Overview" := rfl
example : reMatchCases "Type 2 Diabetes 5 Cases".data =
    some ("Type 2 Diabetes ".data, "5".data) := rfl
example : pyStrip " F ".data = "F".data := by decide
example : pyReplace "Sex:".data "Sex: F Sex: M".data = " F  M".data := by decide
example : pyRstrip ':' "Sex::".data = "Sex".data := by decide
example : splitOnChar '/' "a/b".data = ["a".data, "b".data] := by decide
example : splitFirst "://".data "https://h/a".data = some ("https".data, "h/a".data) := by decide
example : hasOcc "Sex:".data " F M".data = false := by decide

end Scraping
